import Mathlib

/-
Verification development for the NetDiagram network-discovery tool.

Shallow embedding of the Python sources:
  * data_parser.py      — parse_cdp_neighbors, parse_lldp_neighbors,
                          parse_interfaces, parse_version
  * device_connector.py — execute_commands
  * network_discovery.py — discover_single_device, discover_network

Modelling conventions:
  * Python dicts with a fixed set of optional keys become structures with
    Option fields; a missing key is none.  Python truthiness of a
    dict lookup (missing key, None, or the empty string are all falsy)
    is the function truthy below.
  * The regex searches in data_parser.py (re.search with a fixed
    label-anchored pattern, returning group(1).strip() or no match) are
    abstracted as extraction functions String -> Option String, one per
    field, gathered in extractor structures.  All parser theorems are
    proved for arbitrary extractors, so they hold for the concrete
    Python regexes whatever their exact matching semantics.
  * re.split on the block separators is modelled concretely:
    split_cdp_blocks splits on maximal runs of three or more dashes,
    split_lldp_blocks splits on the separator
    newline newline "Device ID:" nonempty-line newline.
  * The netmiko session collaborator (ConnectHandler, send_command) is
    external to the repository and is abstracted: connection success and
    per-command results are fields of an environment Env; command
    execution in device_connector.py is modelled over an abstract
    session-state type with a per-command step function.
  * Python sets become lists used up to membership; Python dicts used as
    maps become association lists with insert-or-replace semantics
    (assocUpd), preserving insertion order exactly as CPython does.
  * The while loop of discover_network is modelled as a step function
    frontierStep (one loop iteration) iterated by frontierRun with
    explicit fuel; frontierRun applied to every fuel value enumerates
    every state the loop passes through, so safety properties quantified
    over the fuel hold at every point during and after a run.
  * The FrontierState field visited is ghost instrumentation (not a
    variable of the source): it records, in order, the addresses on
    which discover_single_device is invoked, i.e. the addresses that
    enter the IN_PROGRESS state of the spec.
-/

/-- Python truthiness of an optional-string dict entry: a missing key
(none) and the empty string are falsy. -/
def truthy : Option String → Bool
  | none => false
  | some s => !(s == "")

/-- Python `not block.strip()`: true iff the string is all whitespace. -/
def strip_empty (s : String) : Bool := s.data.all Char.isWhitespace

/-- A neighbor record as built by data_parser.py: a dict with up to five
optional string entries. -/
structure Neighbor where
  device_id : Option String
  ip : Option String
  platform : Option String
  local_interface : Option String
  remote_interface : Option String
deriving DecidableEq

/-- A version/identity record as built by parse_version: a dict with up
to three optional string entries. -/
structure VersionDict where
  hardware : Option String
  version : Option String
  hostname : Option String
deriving DecidableEq

/-- A structured interface record (TextFSM output row) as consumed by
parse_interfaces; only the interface-name key is relevant to re-keying. -/
structure IntfDict where
  interface : Option String
deriving DecidableEq

/-- The field extractions of parse_cdp_neighbors: each models one
re.search call (Device ID:, IP address:, Platform:, Interface:,
Port ID (outgoing port):) returning group(1).strip() on a match. -/
structure CdpExtractors where
  device_id : String → Option String
  ip : String → Option String
  platform : String → Option String
  local_interface : String → Option String
  remote_interface : String → Option String

/-- The field extractions of parse_lldp_neighbors (System Name:,
Management Address:, Local Interface:, Port ID:). -/
structure LldpExtractors where
  device_id : String → Option String
  ip : String → Option String
  local_interface : String → Option String
  remote_interface : String → Option String

/-- The field extractions of the raw path of parse_version (hardware
model, IOS version, hostname). -/
structure VerExtractors where
  hardware : String → Option String
  version : String → Option String
  hostname : String → Option String

/-- Block splitter for CDP: re.split of a run of three or more dashes.
First accumulator is the reversed current block, second the pending run
of dashes. -/
def dashRunSplit : List Char → List Char → List Char → List String
  | [], acc, dashes =>
    if 3 ≤ dashes.length then [String.mk acc.reverse, ""]
    else [String.mk (dashes ++ acc).reverse]
  | c :: rest, acc, dashes =>
    if c = '-' then dashRunSplit rest acc (c :: dashes)
    else if 3 ≤ dashes.length then String.mk acc.reverse :: dashRunSplit rest [c] []
    else dashRunSplit rest (c :: (dashes ++ acc)) []

/-- The device_blocks of parse_cdp_neighbors. -/
def split_cdp_blocks (s : String) : List String := dashRunSplit s.data [] []

/-- Match of the LLDP block separator regex (two newline characters,
the literal "Device ID:", a nonempty run of non-newline characters, a
newline) at the head of the list; returns the remainder after the
separator. -/
def lldpSepRest (l : List Char) : Option (List Char) :=
  match l with
  | c0 :: c1 :: rest =>
    if (c0 == '\r' || c0 == '\n') && (c1 == '\r' || c1 == '\n') then
      if rest.take 10 = "Device ID:".data then
        let t := rest.drop 10
        let body := t.takeWhile (fun c => !(c == '\r' || c == '\n'))
        let after := t.dropWhile (fun c => !(c == '\r' || c == '\n'))
        if 1 ≤ body.length then
          match after with
          | _ :: tail => some tail
          | [] => none
        else none
      else none
    else none
  | _ => none

/-- Fuelled scan for occurrences of the LLDP separator; fuel is the
input length, which suffices since every step consumes a character. -/
def lldpSplitAux : Nat → List Char → List Char → List String
  | 0, l, acc => [String.mk (acc.reverse ++ l)]
  | _ + 1, [], acc => [String.mk acc.reverse]
  | fuel + 1, c :: rest, acc =>
    match lldpSepRest (c :: rest) with
    | some rem => String.mk acc.reverse :: lldpSplitAux fuel rem []
    | none => lldpSplitAux fuel rest (c :: acc)

/-- The device_blocks of parse_lldp_neighbors. -/
def split_lldp_blocks (s : String) : List String :=
  lldpSplitAux s.data.length s.data []

/-- Input of the neighbor parsing functions: either a list already
structured by TextFSM, or raw command text. -/
inductive NInput where
  | structured (l : List Neighbor)
  | raw (s : String)
deriving DecidableEq

/-- Input of parse_version. -/
inductive VInput where
  | dictIn (d : VersionDict)
  | listIn (l : List VersionDict)
  | raw (s : String)
deriving DecidableEq

/-- Input of parse_interfaces. -/
inductive IInput where
  | structured (l : List IntfDict)
  | raw (s : String)
deriving DecidableEq

/-- The neighbor dict built from one CDP block: five independent field
extractions. -/
def cdp_block_record (E : CdpExtractors) (block : String) : Neighbor :=
  { device_id := E.device_id block
    ip := E.ip block
    platform := E.platform block
    local_interface := E.local_interface block
    remote_interface := E.remote_interface block }

/-- One iteration of the CDP block loop: skip all-whitespace blocks,
build the record, keep it only if device_id and ip are both truthy. -/
def cdp_block_contrib (E : CdpExtractors) (block : String) : Option Neighbor :=
  if strip_empty block then none
  else if truthy (cdp_block_record E block).device_id && truthy (cdp_block_record E block).ip
  then some (cdp_block_record E block)
  else none

/-- parse_cdp_neighbors of data_parser.py: a structured list is
returned unchanged; raw text is split into blocks, each contributing at
most one record. -/
def parse_cdp_neighbors (E : CdpExtractors) : NInput → List Neighbor
  | .structured l => l
  | .raw output => (split_cdp_blocks output).filterMap (cdp_block_contrib E)

/-- The neighbor dict built from one LLDP block (no platform field). -/
def lldp_block_record (E : LldpExtractors) (block : String) : Neighbor :=
  { device_id := E.device_id block
    ip := E.ip block
    platform := none
    local_interface := E.local_interface block
    remote_interface := E.remote_interface block }

/-- One iteration of the LLDP block loop. -/
def lldp_block_contrib (E : LldpExtractors) (block : String) : Option Neighbor :=
  if strip_empty block then none
  else if truthy (lldp_block_record E block).device_id && truthy (lldp_block_record E block).ip
  then some (lldp_block_record E block)
  else none

/-- parse_lldp_neighbors of data_parser.py. -/
def parse_lldp_neighbors (E : LldpExtractors) : NInput → List Neighbor
  | .structured l => l
  | .raw output => (split_lldp_blocks output).filterMap (lldp_block_contrib E)

/-- Association-list insert with dict semantics: replace in place if the
key exists, else append (CPython dicts preserve insertion order). -/
def assocUpd {β : Type} (k : String) (v : β) (m : List (String × β)) :
    List (String × β) :=
  if m.any (fun p => decide (p.1 = k)) then
    m.map (fun p => if p.1 = k then (k, v) else p)
  else m ++ [(k, v)]

/-- Association-list lookup. -/
def assocFind {β : Type} (k : String) : List (String × β) → Option β
  | [] => none
  | p :: rest => if p.1 = k then some p.2 else assocFind k rest

/-- parse_interfaces of data_parser.py: re-key a structured list by
interface name (falling back to "unknown"); raw text yields the empty
mapping. -/
def parse_interfaces : IInput → List (String × IntfDict)
  | .structured l => l.foldl (fun m i => assocUpd (i.interface.getD "unknown") i m) []
  | .raw _ => []

/-- parse_version of data_parser.py: a dict is returned as-is, a
non-empty list yields its first element, the empty list is returned as
itself (inr); raw text yields three independent extractions. -/
def parse_version (E : VerExtractors) : VInput → VersionDict ⊕ List VersionDict
  | .dictIn d => .inl d
  | .listIn [] => .inr []
  | .listIn (x :: _) => .inl x
  | .raw s => .inl { hardware := E.hardware s, version := E.version s, hostname := E.hostname s }

/-- One iteration of the LLDP merge loop of discover_single_device:
append the LLDP record unless its raw ip value is already in the
tracking set, then add its ip to the set. -/
def mergeStep (acc : List Neighbor × List (Option String)) (ln : Neighbor) :
    List Neighbor × List (Option String) :=
  if ln.ip ∈ acc.2 then acc else (acc.1 ++ [ln], ln.ip :: acc.2)

/-- The neighbor reconciliation of discover_single_device (lines
104-112 of network_discovery.py): start from the CDP list, seed the
tracking set with its truthy ips, then fold the LLDP list. -/
def merge_neighbors (cdp lldp : List Neighbor) : List Neighbor :=
  (lldp.foldl mergeStep
    (cdp, cdp.filterMap (fun n => if truthy n.ip then some n.ip else none))).1

/-- Formatting of a per-command result in execute_commands: an
exception is captured inline as an error string. -/
def formatResult : Except String String → String
  | .ok o => o
  | .error e => "ERROR: " ++ e

/-- The command loop of execute_commands, threading the abstract
session state and accumulating the per-command output dict. -/
def execAux {σ : Type} (send : σ → String → σ × Except String String) :
    List String → σ × List (String × String) → σ × List (String × String)
  | [], acc => acc
  | c :: rest, (s, m) =>
    execAux send rest ((send s c).1, assocUpd c (formatResult (send s c).2) m)

/-- execute_commands of device_connector.py over an abstract session:
send is the session collaborator's per-command behaviour. -/
def execute_commands {σ : Type} (send : σ → String → σ × Except String String)
    (conn : σ) (commands : List String) : List (String × String) :=
  (execAux send commands (conn, [])).2

/-- The session state reached after executing a prefix of the command
list. -/
def runState {σ : Type} (send : σ → String → σ × Except String String)
    (conn : σ) : List String → σ
  | [] => conn
  | c :: rest => runState send (send conn c).1 rest

/-- Connection parameters of one queue entry: the ip key (possibly
missing) and the remaining connection parameters, opaque to the
traversal and copied to neighbors (credential inheritance). -/
structure DeviceParams where
  ip : Option String
  cred : String
deriving DecidableEq

/-- The outputs the session collaborator returns for the discovery
commands of one device, already keyed by command (execute_commands
returns an entry per command; only these four are parsed). -/
structure CommandResults where
  version : VInput
  cdp : NInput
  lldp : NInput
  interfaces : IInput
deriving DecidableEq

/-- The device_data dict built by discover_single_device. -/
structure DeviceData where
  ip : String
  discovered_at : Nat
  hardware : Option String
  version : Option String
  hostname : Option String
  neighbors : Option (List Neighbor)
  interfaces : Option (List (String × IntfDict))
  raw_output : Option CommandResults
deriving DecidableEq

/-- Classification of a candidate address string in discover_network:
fails ipaddress.ip_address (invalid), matches an ignored network
(excluded), or neither (ok). -/
inductive AddrClass where
  | ok
  | excluded
  | invalid
deriving DecidableEq

/-- The external world of one discovery run: address classification
(ipaddress parse plus the configured ignored networks), the session
collaborator's behaviour, the wall clock, and the fixed regex
extractors of data_parser.py. -/
structure Env where
  classify : String → AddrClass
  connects : DeviceParams → Bool
  results : DeviceParams → CommandResults
  clock : Nat
  cdpE : CdpExtractors
  lldpE : LldpExtractors
  verE : VerExtractors

/-- device_data.update(version_data): merge the keys present in the
parse_version result; the empty-list result updates nothing. -/
def applyVersion (d : DeviceData) : VersionDict ⊕ List VersionDict → DeviceData
  | .inl v =>
    { d with
      hardware := v.hardware <|> d.hardware
      version := v.version <|> d.version
      hostname := v.hostname <|> d.hostname }
  | .inr _ => d

/-- discover_single_device of network_discovery.py: the initial record
holds the ip (default "unknown") and timestamp; on connection failure
it is returned as-is; on success the version fields, merged neighbor
list, interface map and raw output are added. -/
def discover_single_device (env : Env) (params : DeviceParams) : DeviceData :=
  let device_data : DeviceData :=
    { ip := params.ip.getD "unknown", discovered_at := env.clock
      hardware := none, version := none, hostname := none
      neighbors := none, interfaces := none, raw_output := none }
  if env.connects params then
    let res := env.results params
    { applyVersion device_data (parse_version env.verE res.version) with
      neighbors := some (merge_neighbors
        (parse_cdp_neighbors env.cdpE res.cdp)
        (parse_lldp_neighbors env.lldpE res.lldp))
      interfaces := some (parse_interfaces res.interfaces)
      raw_output := some res }
  else device_data

/-- The live state of the discovery loop.  visited is ghost
instrumentation recording the addresses handed to
discover_single_device, in order. -/
structure FrontierState where
  discovered : List (String × DeviceData)
  queue : List DeviceParams
  attempted : List (Option String)
  visited : List String
deriving DecidableEq

/-- One iteration of the neighbor-enqueue loop (lines 193-212): the
queue-membership scan is recomputed against the current queue, and the
subnet classification of the neighbor is checked before appending an
entry that inherits the parent's parameters. -/
def enqStep (env : Env) (params : DeviceParams) (att : List (Option String))
    (q : List DeviceParams) (n : Neighbor) : List DeviceParams :=
  match n.ip with
  | none => q
  | some nip =>
    if nip = "" then q
    else if some nip ∈ att then q
    else if some nip ∈ q.map DeviceParams.ip then q
    else
      match env.classify nip with
      | .excluded => q
      | .invalid => q
      | .ok => q ++ [{ params with ip := some nip }]

/-- The whole neighbor-enqueue pass over a device's merged neighbor
list. -/
def enqueue_neighbors (env : Env) (params : DeviceParams) (ns : List Neighbor)
    (att : List (Option String)) (q : List DeviceParams) : List DeviceParams :=
  ns.foldl (enqStep env params att) q

/-- One iteration of the discovery while loop (lines 167-212 of
network_discovery.py): returns none when the loop condition fails
(empty queue or device cap reached), otherwise the state after
processing the popped entry. -/
def frontierStep (env : Env) (max_devices : Nat) (s : FrontierState) :
    Option FrontierState :=
  match s.queue with
  | [] => none
  | params :: rest =>
    if s.discovered.length < max_devices then
      if params.ip ∈ s.attempted then some { s with queue := rest }
      else
        match params.ip with
        | none => some { s with queue := rest, attempted := none :: s.attempted }
        | some ip =>
          match env.classify ip with
          | .invalid => some { s with queue := rest, attempted := some ip :: s.attempted }
          | .excluded => some { s with queue := rest, attempted := some ip :: s.attempted }
          | .ok =>
            let dd := discover_single_device env params
            let att := some ip :: s.attempted
            some
              { discovered := assocUpd ip dd s.discovered
                queue :=
                  match dd.neighbors with
                  | none => rest
                  | some ns => enqueue_neighbors env params ns att rest
                attempted := att
                visited := s.visited ++ [ip] }
    else none

/-- Iteration of frontierStep with fuel; frontierRun applied to all
fuel values enumerates every state of the run. -/
def frontierRun (env : Env) (max_devices : Nat) : Nat → FrontierState → FrontierState
  | 0, s => s
  | fuel + 1, s =>
    match frontierStep env max_devices s with
    | none => s
    | some s' => frontierRun env max_devices fuel s'

/-- The state of discover_network before the first loop iteration. -/
def initState (seeds : List DeviceParams) : FrontierState :=
  { discovered := [], queue := seeds, attempted := [], visited := [] }

/-- Number of queue entries carrying a given ip. -/
def countIp (nip : String) (q : List DeviceParams) : Nat :=
  (q.filter (fun d => decide (d.ip = some nip))).length

/-- A parsed neighbor record with both essential fields truthy. -/
def validN (n : Neighbor) : Bool := truthy n.device_id && truthy n.ip

/-- Boolean form of the address filter used in the reconciliation
statements. -/
def ipPred (a : String) (n : Neighbor) : Bool := decide (n.ip = some a)

/-- Extractors that never match, for concrete evaluations. -/
def Ec0 : CdpExtractors :=
  { device_id := fun _ => none, ip := fun _ => none, platform := fun _ => none
    local_interface := fun _ => none, remote_interface := fun _ => none }

/-- LLDP extractors that never match. -/
def El0 : LldpExtractors :=
  { device_id := fun _ => none, ip := fun _ => none
    local_interface := fun _ => none, remote_interface := fun _ => none }

/-- Version extractors that never match. -/
def Ev0 : VerExtractors :=
  { hardware := fun _ => none, version := fun _ => none, hostname := fun _ => none }

/-- A neighbor record with the two essential fields set. -/
def mkN (d i : String) : Neighbor :=
  { device_id := some d, ip := some i, platform := none
    local_interface := none, remote_interface := none }

/-- A structured record carrying an address but no device identifier. -/
def badN : Neighbor :=
  { device_id := none, ip := some "10.0.0.9", platform := none
    local_interface := none, remote_interface := none }

/-- Command results that are all raw empty text. -/
def emptyResults : CommandResults :=
  { version := VInput.raw "", cdp := NInput.raw ""
    lldp := NInput.raw "", interfaces := IInput.raw "" }

/-- A base environment for concrete evaluations: every address parses
and matches no ignored network, every connection succeeds, every
command returns empty raw text. -/
def cenvBase : Env :=
  { classify := fun _ => AddrClass.ok, connects := fun _ => true
    results := fun _ => emptyResults, clock := 0
    cdpE := Ec0, lldpE := El0, verE := Ev0 }

/-- Environment whose device reports the same neighbor address twice
via structured CDP output. -/
def cenvDup : Env :=
  { cenvBase with
    results := fun _ =>
      { emptyResults with
        cdp := NInput.structured [mkN "SW2" "10.0.0.2", mkN "SW2" "10.0.0.2"]
        lldp := NInput.structured [] } }

/-- Environment whose device returns a structured CDP record lacking a
device identifier. -/
def cenvBad : Env :=
  { cenvBase with
    results := fun _ =>
      { emptyResults with
        cdp := NInput.structured [badN]
        lldp := NInput.structured [] } }

/-- Environment in which 10.0.0.1 falls in an ignored subnet. -/
def cenvEx : Env :=
  { cenvBase with
    classify := fun s => if s = "10.0.0.1" then AddrClass.excluded else AddrClass.ok }

/-- Environment in which every connection attempt fails. -/
def cenvFail : Env := { cenvBase with connects := fun _ => false }

/-- A seed queue entry. -/
def p1 : DeviceParams := { ip := some "10.0.0.1", cred := "c" }

/-- Two CDP records sharing one address, for the reconciliation
counterexample. -/
def cdpDup : List Neighbor := [mkN "A" "10.0.0.2", mkN "B" "10.0.0.2"]

/-- One LLDP record with that same address. -/
def lldpOne : List Neighbor := [mkN "C" "10.0.0.2"]

/-- A CDP list with a unique record per address. -/
def cdpW : List Neighbor := [mkN "SW2" "10.0.0.2"]

/-- An LLDP list sharing one address with cdpW and adding one. -/
def lldpW : List Neighbor := [mkN "SW2b" "10.0.0.2", mkN "SW3" "10.0.0.3"]

/-- A concrete session behaviour: the first discovery command succeeds,
every other command raises. -/
def sendW : Nat → String → Nat × Except String String :=
  fun s c => (s + 1, if c = "show version" then Except.ok "IOS" else Except.error "boom")

/-- Replacing the value at another key does not change a lookup. -/
lemma assocFind_map_replace {β : Type} {k k' : String} (hne : k ≠ k') (v : β) :
    ∀ m : List (String × β),
      assocFind k (m.map (fun p => if p.1 = k' then (k', v) else p)) = assocFind k m := by
  intro m
  induction m with
  | nil => rfl
  | cons p rest ih =>
    simp only [List.map_cons]
    by_cases hp : p.1 = k'
    · simp [assocFind, hp, Ne.symm hne, ih]
    · by_cases hk : p.1 = k
      · simp [assocFind, hp, hk, hne]
      · simp [assocFind, hp, hk, ih]

/-- Appending an entry with another key does not change a lookup. -/
lemma assocFind_append_ne {β : Type} {k k' : String} (hne : k ≠ k') (v : β) :
    ∀ m : List (String × β), assocFind k (m ++ [(k', v)]) = assocFind k m := by
  intro m
  induction m with
  | nil => simp [assocFind, Ne.symm hne]
  | cons p rest ih =>
    simp only [List.cons_append]
    by_cases hk : p.1 = k
    · simp [assocFind, hk]
    · simp [assocFind, hk, ih]

/-- Updating another key does not change a lookup. -/
lemma assocFind_upd_ne {β : Type} {k k' : String} (hne : k ≠ k') (v : β)
    (m : List (String × β)) : assocFind k (assocUpd k' v m) = assocFind k m := by
  unfold assocUpd
  split
  · exact assocFind_map_replace hne v m
  · exact assocFind_append_ne hne v m

/-- Lookup after in-place replacement of an existing key. -/
lemma assocFind_map_self {β : Type} (k : String) (v : β) :
    ∀ m : List (String × β), m.any (fun p => decide (p.1 = k)) = true →
      assocFind k (m.map (fun p => if p.1 = k then (k, v) else p)) = some v := by
  intro m
  induction m with
  | nil => intro h; simp at h
  | cons p rest ih =>
    intro h
    simp only [List.map_cons]
    by_cases hp : p.1 = k
    · simp [assocFind, hp]
    · simp only [List.any_cons, Bool.or_eq_true, decide_eq_true_eq] at h
      rcases h with h | h
      · exact absurd h hp
      · simp [assocFind, hp]
        exact ih h

/-- Lookup after appending a fresh key. -/
lemma assocFind_append_self {β : Type} (k : String) (v : β) :
    ∀ m : List (String × β), ¬m.any (fun p => decide (p.1 = k)) = true →
      assocFind k (m ++ [(k, v)]) = some v := by
  intro m
  induction m with
  | nil => intro _; simp [assocFind]
  | cons p rest ih =>
    intro h
    simp only [List.cons_append]
    have hp : ¬p.1 = k := by
      intro hk
      exact h (by simp [List.any_cons, hk])
    simp [assocFind, hp]
    apply ih
    intro hany
    exact h (by simp only [List.any_cons, Bool.or_eq_true]; exact Or.inr hany)

/-- Updating a key makes its lookup return the new value. -/
lemma assocFind_upd_self {β : Type} (k : String) (v : β) (m : List (String × β)) :
    assocFind k (assocUpd k v m) = some v := by
  unfold assocUpd
  split
  · next h => exact assocFind_map_self k v m h
  · next h => exact assocFind_append_self k v m h

/-- An update preserves the presence of every key. -/
lemma assocFind_upd_isSome {β : Type} (k k' : String) (v : β) (m : List (String × β))
    (h : (assocFind k m).isSome = true) : (assocFind k (assocUpd k' v m)).isSome = true := by
  by_cases hk : k = k'
  · subst hk; rw [assocFind_upd_self]; rfl
  · rw [assocFind_upd_ne hk v m]; exact h

/-- An update grows the map by at most one entry. -/
lemma length_assocUpd_le {β : Type} (k : String) (v : β) (m : List (String × β)) :
    (assocUpd k v m).length ≤ m.length + 1 := by
  unfold assocUpd
  split
  · rw [List.length_map]; omega
  · rw [List.length_append]; simp

/-- The merge loop only ever appends LLDP records, in order, after the
CDP list. -/
lemma merge_foldl_append (lldp : List Neighbor) :
    ∀ acc : List Neighbor × List (Option String),
      ∃ t, (lldp.foldl mergeStep acc).1 = acc.1 ++ t ∧ List.Sublist t lldp := by
  induction lldp with
  | nil => intro acc; exact ⟨[], by simp, List.Sublist.refl _⟩
  | cons ln rest ih =>
    intro acc
    simp only [List.foldl_cons]
    by_cases h : ln.ip ∈ acc.2
    · have hms : mergeStep acc ln = acc := by simp [mergeStep, h]
      rw [hms]
      obtain ⟨t, ht, hs⟩ := ih acc
      exact ⟨t, ht, hs.cons ln⟩
    · have hms : mergeStep acc ln = (acc.1 ++ [ln], ln.ip :: acc.2) := by
        simp [mergeStep, h]
      rw [hms]
      obtain ⟨t, ht, hs⟩ := ih (acc.1 ++ [ln], ln.ip :: acc.2)
      refine ⟨ln :: t, ?_, hs.cons₂ ln⟩
      rw [ht]
      simp

/-- Once an address is in the tracking set, the merge loop appends no
record carrying it, so the filtered output is the filtered CDP input. -/
lemma merge_foldl_filter (a : String) (lldp : List Neighbor) :
    ∀ acc : List Neighbor × List (Option String), some a ∈ acc.2 →
      ((lldp.foldl mergeStep acc).1.filter (ipPred a)) = acc.1.filter (ipPred a) := by
  induction lldp with
  | nil => intro acc _; rfl
  | cons ln rest ih =>
    intro acc hmem
    simp only [List.foldl_cons]
    by_cases h : ln.ip ∈ acc.2
    · have hms : mergeStep acc ln = acc := by simp [mergeStep, h]
      rw [hms]; exact ih acc hmem
    · have hms : mergeStep acc ln = (acc.1 ++ [ln], ln.ip :: acc.2) := by
        simp [mergeStep, h]
      rw [hms]
      have hne : ipPred a ln = false := by
        unfold ipPred
        simp only [decide_eq_false_iff_not]
        intro hip
        exact h (hip ▸ hmem)
      have hrec := ih (acc.1 ++ [ln], ln.ip :: acc.2) (List.mem_cons_of_mem _ hmem)
      rw [hrec]
      simp [List.filter_append, hne]

/-- Every record of the merged list comes from one of the two inputs. -/
lemma merge_neighbors_mem {cdp lldp : List Neighbor} {n : Neighbor}
    (h : n ∈ merge_neighbors cdp lldp) : n ∈ cdp ∨ n ∈ lldp := by
  unfold merge_neighbors at h
  obtain ⟨t, ht, hs⟩ :=
    merge_foldl_append lldp (cdp, cdp.filterMap (fun n => if truthy n.ip then some n.ip else none))
  rw [ht] at h
  rcases List.mem_append.1 h with h1 | h2
  · exact Or.inl h1
  · exact Or.inr (hs.subset h2)

/-- A popped entry whose address was already attempted is discarded. -/
lemma frontierStep_pop_attempted {env : Env} {m : Nat} {s : FrontierState}
    {params : DeviceParams} {rest : List DeviceParams}
    (hq : s.queue = params :: rest) (hm : s.discovered.length < m)
    (hatt : params.ip ∈ s.attempted) :
    frontierStep env m s = some { s with queue := rest } := by
  simp [frontierStep, hq, hm, hatt]

/-- A popped entry with no ip key fails address parsing and is marked
attempted. -/
lemma frontierStep_skip_none {env : Env} {m : Nat} {s : FrontierState}
    {params : DeviceParams} {rest : List DeviceParams}
    (hq : s.queue = params :: rest) (hm : s.discovered.length < m)
    (hatt : params.ip ∉ s.attempted) (hip : params.ip = none) :
    frontierStep env m s = some { s with queue := rest, attempted := none :: s.attempted } := by
  have hatt2 : (none : Option String) ∉ s.attempted := hip ▸ hatt
  simp [frontierStep, hq, hm, hatt2, hip]

/-- A popped entry whose address fails to parse is marked attempted and
skipped. -/
lemma frontierStep_skip_invalid {env : Env} {m : Nat} {s : FrontierState}
    {params : DeviceParams} {rest : List DeviceParams} {ip : String}
    (hq : s.queue = params :: rest) (hm : s.discovered.length < m)
    (hatt : params.ip ∉ s.attempted) (hip : params.ip = some ip)
    (hcl : env.classify ip = AddrClass.invalid) :
    frontierStep env m s =
      some { s with queue := rest, attempted := some ip :: s.attempted } := by
  have hatt2 : some ip ∉ s.attempted := hip ▸ hatt
  simp [frontierStep, hq, hm, hatt2, hip, hcl]

/-- A popped entry matching an ignored subnet is marked attempted and
skipped without a store entry. -/
lemma frontierStep_skip_excluded {env : Env} {m : Nat} {s : FrontierState}
    {params : DeviceParams} {rest : List DeviceParams} {ip : String}
    (hq : s.queue = params :: rest) (hm : s.discovered.length < m)
    (hatt : params.ip ∉ s.attempted) (hip : params.ip = some ip)
    (hcl : env.classify ip = AddrClass.excluded) :
    frontierStep env m s =
      some { s with queue := rest, attempted := some ip :: s.attempted } := by
  have hatt2 : some ip ∉ s.attempted := hip ▸ hatt
  simp [frontierStep, hq, hm, hatt2, hip, hcl]

/-- A popped entry with a fresh, valid, non-ignored address is visited:
its record is stored, it is marked attempted, and its neighbors are
enqueued. -/
lemma frontierStep_visit {env : Env} {m : Nat} {s : FrontierState}
    {params : DeviceParams} {rest : List DeviceParams} {ip : String}
    (hq : s.queue = params :: rest) (hm : s.discovered.length < m)
    (hatt : params.ip ∉ s.attempted) (hip : params.ip = some ip)
    (hcl : env.classify ip = AddrClass.ok) :
    frontierStep env m s = some
      { discovered := assocUpd ip (discover_single_device env params) s.discovered
        queue :=
          match (discover_single_device env params).neighbors with
          | none => rest
          | some ns => enqueue_neighbors env params ns (some ip :: s.attempted) rest
        attempted := some ip :: s.attempted
        visited := s.visited ++ [ip] } := by
  have hatt2 : some ip ∉ s.attempted := hip ▸ hatt
  simp [frontierStep, hq, hm, hatt2, hip, hcl]

/-- Exhaustive description of one loop iteration. -/
lemma frontierStep_cases {env : Env} {m : Nat} {s s' : FrontierState}
    (h : frontierStep env m s = some s') :
    ∃ params rest, s.queue = params :: rest ∧ s.discovered.length < m ∧
      ((params.ip ∈ s.attempted ∧ s' = { s with queue := rest })
       ∨ (params.ip ∉ s.attempted ∧ params.ip = none ∧
            s' = { s with queue := rest, attempted := none :: s.attempted })
       ∨ (∃ ip, params.ip = some ip ∧ params.ip ∉ s.attempted ∧
            (env.classify ip = AddrClass.invalid ∨ env.classify ip = AddrClass.excluded) ∧
            s' = { s with queue := rest, attempted := some ip :: s.attempted })
       ∨ (∃ ip, params.ip = some ip ∧ params.ip ∉ s.attempted ∧
            env.classify ip = AddrClass.ok ∧
            s' = { discovered := assocUpd ip (discover_single_device env params) s.discovered
                   queue :=
                     match (discover_single_device env params).neighbors with
                     | none => rest
                     | some ns => enqueue_neighbors env params ns (some ip :: s.attempted) rest
                   attempted := some ip :: s.attempted
                   visited := s.visited ++ [ip] })) := by
  cases hq : s.queue with
  | nil =>
    rw [show frontierStep env m s = none from by simp [frontierStep, hq]] at h
    cases h
  | cons params rest =>
    by_cases hm : s.discovered.length < m
    · refine ⟨params, rest, rfl, hm, ?_⟩
      have hq : s.queue = params :: rest := hq
      by_cases hatt : params.ip ∈ s.attempted
      · rw [frontierStep_pop_attempted hq hm hatt] at h
        exact Or.inl ⟨hatt, (Option.some.inj h).symm⟩
      · cases hip : params.ip with
        | none =>
          rw [frontierStep_skip_none hq hm hatt hip] at h
          exact Or.inr (Or.inl ⟨hip ▸ hatt, rfl, (Option.some.inj h).symm⟩)
        | some ip =>
          cases hcl : env.classify ip with
          | invalid =>
            rw [frontierStep_skip_invalid hq hm hatt hip hcl] at h
            exact Or.inr (Or.inr (Or.inl
              ⟨ip, rfl, hip ▸ hatt, Or.inl hcl, (Option.some.inj h).symm⟩))
          | excluded =>
            rw [frontierStep_skip_excluded hq hm hatt hip hcl] at h
            exact Or.inr (Or.inr (Or.inl
              ⟨ip, rfl, hip ▸ hatt, Or.inr hcl, (Option.some.inj h).symm⟩))
          | ok =>
            rw [frontierStep_visit hq hm hatt hip hcl] at h
            exact Or.inr (Or.inr (Or.inr ⟨ip, rfl, hip ▸ hatt, hcl, (Option.some.inj h).symm⟩))
    · rw [show frontierStep env m s = none from by simp [frontierStep, hq, hm]] at h
      cases h

/-- Any property preserved by single iterations holds for every state
the loop reaches. -/
lemma frontierRun_inv (env : Env) (m : Nat) (P : FrontierState → Prop)
    (hstep : ∀ s s', frontierStep env m s = some s' → P s → P s') :
    ∀ fuel s, P s → P (frontierRun env m fuel s) := by
  intro fuel
  induction fuel with
  | zero => intro s hs; exact hs
  | succ n ih =>
    intro s hs
    unfold frontierRun
    cases hst : frontierStep env m s with
    | none => exact hs
    | some s' => exact ih s' (hstep s s' hst hs)

/-- Every state an iteration produces respects the device cap. -/
lemma frontierStep_length_le {env : Env} {m : Nat} {s s' : FrontierState}
    (h : frontierStep env m s = some s') : s'.discovered.length ≤ m := by
  obtain ⟨params, rest, hq, hm, hc⟩ := frontierStep_cases h
  rcases hc with ⟨_, rfl⟩ | ⟨_, _, rfl⟩ | ⟨ip, _, _, _, rfl⟩ | ⟨ip, _, _, _, rfl⟩
  · exact le_of_lt hm
  · exact le_of_lt hm
  · exact le_of_lt hm
  · exact le_trans (length_assocUpd_le ip (discover_single_device env params) s.discovered)
      (Nat.succ_le_of_lt hm)

/-- A CDP block contribution always carries truthy essential fields. -/
lemma cdp_contrib_valid {E : CdpExtractors} {block : String} {n : Neighbor}
    (h : cdp_block_contrib E block = some n) : validN n = true := by
  unfold cdp_block_contrib at h
  split at h
  · cases h
  · split at h
    · next hg =>
      cases h
      exact hg
    · cases h

/-- An LLDP block contribution always carries truthy essential fields. -/
lemma lldp_contrib_valid {E : LldpExtractors} {block : String} {n : Neighbor}
    (h : lldp_block_contrib E block = some n) : validN n = true := by
  unfold lldp_block_contrib at h
  split at h
  · cases h
  · split at h
    · next hg =>
      cases h
      exact hg
    · cases h

/-- Every record of the raw CDP path is valid. -/
lemma parse_cdp_raw_valid (E : CdpExtractors) (s : String) :
    (parse_cdp_neighbors E (NInput.raw s)).all validN = true := by
  rw [List.all_eq_true]
  intro n hn
  obtain ⟨b, _, hc⟩ := List.mem_filterMap.1 hn
  exact cdp_contrib_valid hc

/-- Every record of the raw LLDP path is valid. -/
lemma parse_lldp_raw_valid (E : LldpExtractors) (s : String) :
    (parse_lldp_neighbors E (NInput.raw s)).all validN = true := by
  rw [List.all_eq_true]
  intro n hn
  obtain ⟨b, _, hc⟩ := List.mem_filterMap.1 hn
  exact lldp_contrib_valid hc

/-- The per-ip queue count as absence of the ip among queued entries. -/
lemma countIp_eq_zero {nip : String} {q : List DeviceParams} :
    countIp nip q = 0 ↔ some nip ∉ q.map DeviceParams.ip := by
  unfold countIp
  rw [List.length_eq_zero, List.filter_eq_nil_iff]
  constructor
  · intro h hmem
    obtain ⟨d, hd, hip⟩ := List.mem_map.1 hmem
    exact h d hd (by simp [hip])
  · intro h d hd
    simp only [decide_eq_true_eq]
    intro hip
    exact h (List.mem_map.2 ⟨d, hd, hip⟩)

/-- Queue counts add over concatenation. -/
lemma countIp_append (nip : String) (q1 q2 : List DeviceParams) :
    countIp nip (q1 ++ q2) = countIp nip q1 + countIp nip q2 := by
  unfold countIp
  rw [List.filter_append, List.length_append]

/-- One neighbor-enqueue iteration keeps at most one pending entry per
address: an entry is appended only after the recomputed queue scan
found the address absent. -/
lemma enqStep_count {env : Env} {params : DeviceParams} {att : List (Option String)}
    {nip : String} (q : List DeviceParams) (n : Neighbor)
    (h : countIp nip q ≤ 1) : countIp nip (enqStep env params att q n) ≤ 1 := by
  unfold enqStep
  cases hip : n.ip with
  | none => exact h
  | some nip' =>
    dsimp only
    by_cases h1 : nip' = ""
    · rw [if_pos h1]; exact h
    · rw [if_neg h1]
      by_cases h2 : some nip' ∈ att
      · rw [if_pos h2]; exact h
      · rw [if_neg h2]
        by_cases h3 : some nip' ∈ q.map DeviceParams.ip
        · rw [if_pos h3]; exact h
        · rw [if_neg h3]
          cases hcl : env.classify nip' with
          | excluded => exact h
          | invalid => exact h
          | ok =>
            show countIp nip (q ++ [{ params with ip := some nip' }]) ≤ 1
            rw [countIp_append]
            by_cases hn : nip' = nip
            · subst hn
              rw [countIp_eq_zero.2 h3]
              simp [countIp]
            · have h4 : countIp nip [{ params with ip := some nip' }] = 0 := by
                simp [countIp, hn]
              omega

/-- The whole neighbor-enqueue pass keeps at most one pending entry per
address. -/
lemma enqueue_count {env : Env} {params : DeviceParams} {att : List (Option String)}
    {nip : String} : ∀ (ns : List Neighbor) (q : List DeviceParams),
      countIp nip q ≤ 1 → countIp nip (enqueue_neighbors env params ns att q) ≤ 1 := by
  intro ns
  induction ns with
  | nil => intro q h; exact h
  | cons n rest ih =>
    intro q h
    unfold enqueue_neighbors
    simp only [List.foldl_cons]
    exact ih (enqStep env params att q n) (enqStep_count q n h)

/-- Splitting execAux over an append of command lists. -/
lemma execAux_append {σ : Type} (send : σ → String → σ × Except String String) :
    ∀ (l1 l2 : List String) (p : σ × List (String × String)),
      execAux send (l1 ++ l2) p = execAux send l2 (execAux send l1 p) := by
  intro l1
  induction l1 with
  | nil => intro l2 p; rfl
  | cons c rest ih =>
    intro l2 p
    rcases p with ⟨s, m⟩
    simp only [List.cons_append, execAux]
    exact ih l2 _

/-- The threaded session state after a command prefix. -/
lemma execAux_fst {σ : Type} (send : σ → String → σ × Except String String) :
    ∀ (cmds : List String) (s : σ) (acc : List (String × String)),
      (execAux send cmds (s, acc)).1 = runState send s cmds := by
  intro cmds
  induction cmds with
  | nil => intro s acc; rfl
  | cons c rest ih =>
    intro s acc
    simp only [execAux, runState]
    exact ih _ _

/-- Commands never executed do not disturb a lookup. -/
lemma execAux_skip {σ : Type} (send : σ → String → σ × Except String String) :
    ∀ (cmds : List String) (s : σ) (acc : List (String × String)) (k : String),
      k ∉ cmds → assocFind k (execAux send cmds (s, acc)).2 = assocFind k acc := by
  intro cmds
  induction cmds with
  | nil => intro s acc k _; rfl
  | cons c rest ih =>
    intro s acc k hk
    simp only [execAux]
    rw [ih _ _ k (fun h => hk (List.mem_cons_of_mem _ h))]
    exact assocFind_upd_ne (fun h => hk (by rw [h]; exact List.mem_cons_self c rest)) _ acc

/-- Presence of a key survives the rest of the loop. -/
lemma execAux_preserve {σ : Type} (send : σ → String → σ × Except String String) :
    ∀ (cmds : List String) (s : σ) (acc : List (String × String)) (k : String),
      (assocFind k acc).isSome = true →
      (assocFind k (execAux send cmds (s, acc)).2).isSome = true := by
  intro cmds
  induction cmds with
  | nil => intro s acc k h; exact h
  | cons c rest ih =>
    intro s acc k h
    simp only [execAux]
    exact ih _ _ k (assocFind_upd_isSome k c _ acc h)

/-- Every command of the list ends up with an entry in the output map. -/
lemma execAux_all {σ : Type} (send : σ → String → σ × Except String String) :
    ∀ (cmds : List String) (s : σ) (acc : List (String × String)) (c : String),
      c ∈ cmds → (assocFind c (execAux send cmds (s, acc)).2).isSome = true := by
  intro cmds
  induction cmds with
  | nil => intro s acc c h; cases h
  | cons c0 rest ih =>
    intro s acc c hc
    simp only [execAux]
    rcases List.mem_cons.1 hc with rfl | hc
    · exact execAux_preserve send rest _ _ c
        (by rw [assocFind_upd_self]; rfl)
    · exact ih _ _ c hc

/-- One iteration preserves that the visit trace is duplicate-free and
covered by the attempted set. -/
lemma frontierStep_visited_inv {env : Env} {m : Nat} {s s' : FrontierState}
    (h : frontierStep env m s = some s')
    (hInv : s.visited.Nodup ∧ ∀ v ∈ s.visited, some v ∈ s.attempted) :
    s'.visited.Nodup ∧ ∀ v ∈ s'.visited, some v ∈ s'.attempted := by
  obtain ⟨params, rest, hq, hm, hc⟩ := frontierStep_cases h
  obtain ⟨hnd, hsub⟩ := hInv
  rcases hc with ⟨_, rfl⟩ | ⟨_, _, rfl⟩ | ⟨ip, _, _, _, rfl⟩ | ⟨ip, hip, hatt, hok, rfl⟩
  · exact ⟨hnd, hsub⟩
  · exact ⟨hnd, fun v hv => List.mem_cons_of_mem _ (hsub v hv)⟩
  · exact ⟨hnd, fun v hv => List.mem_cons_of_mem _ (hsub v hv)⟩
  · have hnotv : ip ∉ s.visited := fun hv => (hip ▸ hatt) (hsub ip hv)
    constructor
    · rw [List.nodup_append]
      exact ⟨hnd, List.nodup_singleton ip,
        fun a ha hb => hnotv ((List.mem_singleton.1 hb) ▸ ha)⟩
    · intro v hv
      rcases List.mem_append.1 hv with hv | hv
      · exact List.mem_cons_of_mem _ (hsub v hv)
      · rw [List.mem_singleton] at hv
        subst hv
        exact List.mem_cons_self _ _

/-- One iteration never stores a record under an address classified as
excluded. -/
lemma frontierStep_no_excluded {env : Env} {m : Nat} {ip : String}
    (hex : env.classify ip = AddrClass.excluded) {s s' : FrontierState}
    (h : frontierStep env m s = some s')
    (hInv : assocFind ip s.discovered = none) : assocFind ip s'.discovered = none := by
  obtain ⟨params, rest, hq, hm, hc⟩ := frontierStep_cases h
  rcases hc with ⟨_, rfl⟩ | ⟨_, _, rfl⟩ | ⟨ip', _, _, _, rfl⟩ | ⟨ip', hip, hatt, hok, rfl⟩
  · exact hInv
  · exact hInv
  · exact hInv
  · have hne : ip ≠ ip' := by
      intro hrfl
      rw [hrfl, hok] at hex
      cases hex
    rw [assocFind_upd_ne hne _ s.discovered]
    exact hInv

/-- C1: throughout any run of discover_network — for every seed list,
device cap and session-collaborator behaviour — the discovered-device
store never holds more than max_devices entries, at every point during
the run (every fuel value) and after it returns. -/
theorem spec_c1 (env : Env) (max_devices fuel : Nat) (seeds : List DeviceParams) :
    (frontierRun env max_devices fuel (initState seeds)).discovered.length ≤ max_devices :=
  frontierRun_inv env max_devices (fun s => s.discovered.length ≤ max_devices)
    (fun _ _ hst _ => frontierStep_length_le hst) fuel (initState seeds)
    (Nat.zero_le max_devices)

/-- C2 (amended): for an address a appearing in exactly one CDP record
and in at least one LLDP record, the merged list keeps exactly that one
CDP record for a (the LLDP ones are filtered out), and the output is
the CDP list followed, in order, by the surviving LLDP records.  The
uniqueness hypothesis on the CDP side is necessary: the merge keeps the
CDP list verbatim, duplicates included (see the counterexample). -/
theorem spec_c2 (cdp lldp : List Neighbor) (a : String) (ha : a ≠ "")
    (hcdp : (cdp.filter (ipPred a)).length = 1)
    (_hlldp : 0 < (lldp.filter (ipPred a)).length) :
    (merge_neighbors cdp lldp).filter (ipPred a) = cdp.filter (ipPred a)
    ∧ ((merge_neighbors cdp lldp).filter (ipPred a)).length = 1
    ∧ ∃ t, List.Sublist t lldp ∧ merge_neighbors cdp lldp = cdp ++ t := by
  have hmem : some a ∈ cdp.filterMap (fun n => if truthy n.ip then some n.ip else none) := by
    obtain ⟨n, hn⟩ := List.length_eq_one.1 hcdp
    have hnmem : n ∈ cdp.filter (ipPred a) := by
      rw [hn]; exact List.mem_singleton_self n
    obtain ⟨hin, hp⟩ := List.mem_filter.1 hnmem
    have hip : n.ip = some a := of_decide_eq_true hp
    refine List.mem_filterMap.2 ⟨n, hin, ?_⟩
    simp [hip, truthy, ha]
  have hfil := merge_foldl_filter a lldp
    (cdp, cdp.filterMap (fun n => if truthy n.ip then some n.ip else none)) hmem
  refine ⟨hfil, ?_, ?_⟩
  · rw [show (merge_neighbors cdp lldp).filter (ipPred a) = cdp.filter (ipPred a) from hfil]
    exact hcdp
  · obtain ⟨t, ht, hs⟩ := merge_foldl_append lldp
      (cdp, cdp.filterMap (fun n => if truthy n.ip then some n.ip else none))
    exact ⟨t, hs, ht⟩

/-- Witness for C2 at a concrete reconciliation. -/
theorem spec_c2_witness :
    (("10.0.0.2" : String) ≠ ""
      ∧ (cdpW.filter (ipPred "10.0.0.2")).length = 1
      ∧ 0 < (lldpW.filter (ipPred "10.0.0.2")).length)
    ∧ ((merge_neighbors cdpW lldpW).filter (ipPred "10.0.0.2")
          = cdpW.filter (ipPred "10.0.0.2")
      ∧ ((merge_neighbors cdpW lldpW).filter (ipPred "10.0.0.2")).length = 1
      ∧ ∃ t, List.Sublist t lldpW ∧ merge_neighbors cdpW lldpW = cdpW ++ t) :=
  ⟨⟨by decide, by decide, by decide⟩,
   spec_c2 cdpW lldpW "10.0.0.2" (by decide) (by decide) (by decide)⟩

/-- Counterexample to C2 as stated: the address 10.0.0.2 appears in a
record of each list, yet the merged list has two records for it,
because the CDP list is copied verbatim, duplicates included. -/
theorem spec_c2_cex :
    (mkN "A" "10.0.0.2").ip = some "10.0.0.2"
    ∧ (mkN "C" "10.0.0.2").ip = some "10.0.0.2"
    ∧ ((merge_neighbors cdpDup lldpOne).filter (ipPred "10.0.0.2")).length = 2 := by
  refine ⟨rfl, rfl, ?_⟩
  decide

/-- C6: within a single run, no address is handed to
discover_single_device (enters IN_PROGRESS) more than once — for every
seed list, duplicates included, and every collaborator behaviour; the
ghost visit trace is duplicate-free at every point of the run. -/
theorem spec_c6 (env : Env) (max_devices fuel : Nat) (seeds : List DeviceParams) :
    (frontierRun env max_devices fuel (initState seeds)).visited.Nodup :=
  (frontierRun_inv env max_devices
    (fun s => s.visited.Nodup ∧ ∀ v ∈ s.visited, some v ∈ s.attempted)
    (fun _ _ hst hi => frontierStep_visited_inv hst hi) fuel (initState seeds)
    ⟨List.nodup_nil, fun v hv => absurd hv (List.not_mem_nil v)⟩).1

/-- C10: on the structured path of parse_version, a dict input is
returned as-is, a non-empty list input yields its first element, and
the empty list input is returned as the empty list itself (the inr
branch), never as a version-info record. -/
theorem spec_c10 (E : VerExtractors) (d x : VersionDict) (xs : List VersionDict) :
    parse_version E (VInput.dictIn d) = Sum.inl d
    ∧ parse_version E (VInput.listIn (x :: xs)) = Sum.inl x
    ∧ parse_version E (VInput.listIn []) = Sum.inr []
    ∧ ∀ v : VersionDict, parse_version E (VInput.listIn []) ≠ Sum.inl v :=
  ⟨rfl, rfl, rfl, fun _ h => Sum.noConfusion h⟩

/-- C3 (amended): on the raw-text path, every record either neighbor
routine produces has a truthy device identifier and address, and so
does every neighbor stored in the DeviceRecord assembled from raw
command text; the structured path returns its input unvalidated (see
the counterexample). -/
theorem spec_c3 (env : Env) (params : DeviceParams) (ctext ltext : String)
    (h1 : (env.results params).cdp = NInput.raw ctext)
    (h2 : (env.results params).lldp = NInput.raw ltext) :
    (parse_cdp_neighbors env.cdpE (NInput.raw ctext)).all validN = true
    ∧ (parse_lldp_neighbors env.lldpE (NInput.raw ltext)).all validN = true
    ∧ ((discover_single_device env params).neighbors.getD []).all validN = true := by
  refine ⟨parse_cdp_raw_valid _ _, parse_lldp_raw_valid _ _, ?_⟩
  by_cases hcn : env.connects params = true
  · have hne : (discover_single_device env params).neighbors
        = some (merge_neighbors (parse_cdp_neighbors env.cdpE (env.results params).cdp)
            (parse_lldp_neighbors env.lldpE (env.results params).lldp)) := by
      simp [discover_single_device, hcn]
    rw [hne, h1, h2, Option.getD_some, List.all_eq_true]
    intro n hn
    rcases merge_neighbors_mem hn with h | h
    · exact List.all_eq_true.1 (parse_cdp_raw_valid env.cdpE ctext) n h
    · exact List.all_eq_true.1 (parse_lldp_raw_valid env.lldpE ltext) n h
  · have hne : (discover_single_device env params).neighbors = none := by
      simp [discover_single_device, hcn]
    rw [hne]
    rfl

/-- Witness for C3 at concrete raw inputs. -/
theorem spec_c3_witness :
    ((cenvBase.results p1).cdp = NInput.raw "" ∧ (cenvBase.results p1).lldp = NInput.raw "")
    ∧ ((parse_cdp_neighbors cenvBase.cdpE (NInput.raw "")).all validN = true
      ∧ (parse_lldp_neighbors cenvBase.lldpE (NInput.raw "")).all validN = true
      ∧ ((discover_single_device cenvBase p1).neighbors.getD []).all validN = true) :=
  ⟨⟨rfl, rfl⟩, spec_c3 cenvBase p1 "" "" rfl rfl⟩

/-- Counterexample to C3 as stated: on the structured path the parser
returns the record list unchanged, so a record lacking a device
identifier is produced and is stored in the assembled DeviceRecord. -/
theorem spec_c3_cex :
    parse_cdp_neighbors Ec0 (NInput.structured [badN]) = [badN]
    ∧ badN.device_id = none
    ∧ (discover_single_device cenvBad p1).neighbors = some [badN] := by
  refine ⟨rfl, rfl, ?_⟩
  decide

/-- C4: for raw text and both protocols, a block whose device
identifier or address extraction is not truthy contributes no record
(the total parse functions drop it silently), and each field of a kept
record equals exactly its own extraction, independent of the other
fields. -/
theorem spec_c4 (Ec : CdpExtractors) (El : LldpExtractors) (bc bl : String)
    (hc : truthy (Ec.device_id bc) = false ∨ truthy (Ec.ip bc) = false)
    (hl : truthy (El.device_id bl) = false ∨ truthy (El.ip bl) = false) :
    cdp_block_contrib Ec bc = none
    ∧ lldp_block_contrib El bl = none
    ∧ (∀ output, parse_cdp_neighbors Ec (NInput.raw output)
        = (split_cdp_blocks output).filterMap (cdp_block_contrib Ec))
    ∧ (∀ output, parse_lldp_neighbors El (NInput.raw output)
        = (split_lldp_blocks output).filterMap (lldp_block_contrib El))
    ∧ (∀ b n, cdp_block_contrib Ec b = some n →
        n.device_id = Ec.device_id b ∧ n.ip = Ec.ip b ∧ n.platform = Ec.platform b
        ∧ n.local_interface = Ec.local_interface b
        ∧ n.remote_interface = Ec.remote_interface b)
    ∧ (∀ b n, lldp_block_contrib El b = some n →
        n.device_id = El.device_id b ∧ n.ip = El.ip b ∧ n.platform = none
        ∧ n.local_interface = El.local_interface b
        ∧ n.remote_interface = El.remote_interface b) := by
  refine ⟨?_, ?_, fun _ => rfl, fun _ => rfl, ?_, ?_⟩
  · rcases hc with h | h
    · simp [cdp_block_contrib, cdp_block_record, h]
    · simp [cdp_block_contrib, cdp_block_record, h]
  · rcases hl with h | h
    · simp [lldp_block_contrib, lldp_block_record, h]
    · simp [lldp_block_contrib, lldp_block_record, h]
  · intro b n h
    unfold cdp_block_contrib at h
    split at h
    · cases h
    · split at h
      · cases h
        exact ⟨rfl, rfl, rfl, rfl, rfl⟩
      · cases h
  · intro b n h
    unfold lldp_block_contrib at h
    split at h
    · cases h
    · split at h
      · cases h
        exact ⟨rfl, rfl, rfl, rfl, rfl⟩
      · cases h

/-- Witness for C4 with extractors that never match. -/
theorem spec_c4_witness :
    ((truthy (Ec0.device_id "x") = false ∨ truthy (Ec0.ip "x") = false)
      ∧ (truthy (El0.device_id "x") = false ∨ truthy (El0.ip "x") = false))
    ∧ (cdp_block_contrib Ec0 "x" = none
      ∧ lldp_block_contrib El0 "x" = none
      ∧ (∀ output, parse_cdp_neighbors Ec0 (NInput.raw output)
          = (split_cdp_blocks output).filterMap (cdp_block_contrib Ec0))
      ∧ (∀ output, parse_lldp_neighbors El0 (NInput.raw output)
          = (split_lldp_blocks output).filterMap (lldp_block_contrib El0))
      ∧ (∀ b n, cdp_block_contrib Ec0 b = some n →
          n.device_id = Ec0.device_id b ∧ n.ip = Ec0.ip b ∧ n.platform = Ec0.platform b
          ∧ n.local_interface = Ec0.local_interface b
          ∧ n.remote_interface = Ec0.remote_interface b)
      ∧ (∀ b n, lldp_block_contrib El0 b = some n →
          n.device_id = El0.device_id b ∧ n.ip = El0.ip b ∧ n.platform = none
          ∧ n.local_interface = El0.local_interface b
          ∧ n.remote_interface = El0.remote_interface b)) :=
  ⟨⟨Or.inl (by decide), Or.inl (by decide)⟩,
   spec_c4 Ec0 El0 "x" "x" (Or.inl (by decide)) (Or.inl (by decide))⟩

/-- C5 (amended): the queue scan is recomputed at every neighbor check
and the enqueue happens before the next neighbor is examined, so after
one neighbor-enqueue pass an address absent from the queue has at most
one pending entry, even if the device's neighbor list repeats it. -/
theorem spec_c5 (env : Env) (params : DeviceParams) (ns : List Neighbor)
    (att : List (Option String)) (q : List DeviceParams) (nip : String)
    (h : some nip ∉ q.map DeviceParams.ip) :
    countIp nip (enqueue_neighbors env params ns att q) ≤ 1 :=
  enqueue_count ns q (by rw [countIp_eq_zero.2 h]; exact Nat.zero_le 1)

/-- Witness for C5 at a duplicated neighbor list. -/
theorem spec_c5_witness :
    (some "10.0.0.2" ∉ ([] : List DeviceParams).map DeviceParams.ip)
    ∧ countIp "10.0.0.2"
        (enqueue_neighbors cenvBase p1 [mkN "SW2" "10.0.0.2", mkN "SW2" "10.0.0.2"]
          [some "10.0.0.1"] []) ≤ 1 :=
  ⟨by decide,
   spec_c5 cenvBase p1 [mkN "SW2" "10.0.0.2", mkN "SW2" "10.0.0.2"]
     [some "10.0.0.1"] [] "10.0.0.2" (by decide)⟩

/-- Counterexample to C5 as stated: a device reports the same new
address twice, yet after its iteration the queue holds exactly one
pending entry for that address, not two. -/
theorem spec_c5_cex :
    (discover_single_device cenvDup p1).neighbors
        = some [mkN "SW2" "10.0.0.2", mkN "SW2" "10.0.0.2"]
    ∧ countIp "10.0.0.2" (frontierRun cenvDup 10 1 (initState [p1])).queue = 1 := by
  constructor
  · decide
  · decide

/-- C7: an address matching a configured excluded range is never a key
of the discovered store at any point of any run, and popping such a
fresh candidate only adds it to attempted and drops it. -/
theorem spec_c7 (env : Env) (m fuel : Nat) (seeds : List DeviceParams) (ip : String)
    (s : FrontierState) (params : DeviceParams) (rest : List DeviceParams)
    (hex : env.classify ip = AddrClass.excluded)
    (hq : s.queue = params :: rest) (hm : s.discovered.length < m)
    (hip : params.ip = some ip) (hatt : params.ip ∉ s.attempted) :
    assocFind ip (frontierRun env m fuel (initState seeds)).discovered = none
    ∧ frontierStep env m s
        = some { s with queue := rest, attempted := some ip :: s.attempted } :=
  ⟨frontierRun_inv env m (fun st => assocFind ip st.discovered = none)
      (fun _ _ hst hi => frontierStep_no_excluded hex hst hi) fuel (initState seeds) rfl,
   frontierStep_skip_excluded hq hm hatt hip hex⟩

/-- Witness for C7: seed 10.0.0.1 inside the ignored range. -/
theorem spec_c7_witness :
    (cenvEx.classify "10.0.0.1" = AddrClass.excluded
      ∧ (initState [p1]).queue = p1 :: []
      ∧ (initState [p1]).discovered.length < 5
      ∧ p1.ip = some "10.0.0.1"
      ∧ p1.ip ∉ (initState [p1]).attempted)
    ∧ (assocFind "10.0.0.1" (frontierRun cenvEx 5 4 (initState [p1])).discovered = none
      ∧ frontierStep cenvEx 5 (initState [p1])
          = some { initState [p1] with queue := [], attempted := [some "10.0.0.1"] }) :=
  ⟨⟨by decide, rfl, by decide, rfl, by decide⟩,
   spec_c7 cenvEx 5 4 [p1] "10.0.0.1" (initState [p1]) p1 []
     (by decide) rfl (by decide) rfl (by decide)⟩

/-- C8: a fresh valid candidate whose connection attempt fails gets a
minimal record (address and timestamp only), is stored under its
address and marked attempted, and the iteration completes normally with
the rest of the queue untouched. -/
theorem spec_c8 (env : Env) (m : Nat) (s : FrontierState) (params : DeviceParams)
    (rest : List DeviceParams) (ip : String)
    (hconn : env.connects params = false)
    (hq : s.queue = params :: rest) (hm : s.discovered.length < m)
    (hip : params.ip = some ip) (hatt : params.ip ∉ s.attempted)
    (hok : env.classify ip = AddrClass.ok) :
    discover_single_device env params =
      { ip := ip, discovered_at := env.clock, hardware := none, version := none
        hostname := none, neighbors := none, interfaces := none, raw_output := none }
    ∧ frontierStep env m s = some
        { discovered := assocUpd ip (discover_single_device env params) s.discovered
          queue := rest
          attempted := some ip :: s.attempted
          visited := s.visited ++ [ip] } := by
  have hdd : discover_single_device env params =
      { ip := ip, discovered_at := env.clock, hardware := none, version := none
        hostname := none, neighbors := none, interfaces := none, raw_output := none } := by
    simp [discover_single_device, hconn, hip]
  refine ⟨hdd, ?_⟩
  rw [frontierStep_visit hq hm hatt hip hok, hdd]

/-- Witness for C8: a seed whose connection fails. -/
theorem spec_c8_witness :
    (cenvFail.connects p1 = false
      ∧ (initState [p1]).queue = p1 :: []
      ∧ (initState [p1]).discovered.length < 5
      ∧ p1.ip = some "10.0.0.1"
      ∧ p1.ip ∉ (initState [p1]).attempted
      ∧ cenvFail.classify "10.0.0.1" = AddrClass.ok)
    ∧ (discover_single_device cenvFail p1 =
        { ip := "10.0.0.1", discovered_at := cenvFail.clock, hardware := none
          version := none, hostname := none, neighbors := none, interfaces := none
          raw_output := none }
      ∧ frontierStep cenvFail 5 (initState [p1]) = some
          { discovered :=
              assocUpd "10.0.0.1" (discover_single_device cenvFail p1)
                (initState [p1]).discovered
            queue := []
            attempted := some "10.0.0.1" :: (initState [p1]).attempted
            visited := (initState [p1]).visited ++ ["10.0.0.1"] }) :=
  ⟨⟨rfl, rfl, by decide, rfl, by decide, rfl⟩,
   spec_c8 cenvFail 5 (initState [p1]) p1 [] "10.0.0.1"
     rfl rfl (by decide) rfl (by decide) rfl⟩

/-- C9: command execution yields an entry for every command of the
list; a command that raises gets its error captured inline under its
key, and the loop still executes the remaining commands (the entry of a
command not repeated later holds exactly the formatted result of its
own invocation at the threaded session state). -/
theorem spec_c9 {σ : Type} (send : σ → String → σ × Except String String) (conn : σ)
    (commands pre post : List String) (c : String)
    (hsplit : commands = pre ++ c :: post) (hnot : c ∉ post) :
    (commands.all
        (fun c2 => (assocFind c2 (execute_commands send conn commands)).isSome)) = true
    ∧ assocFind c (execute_commands send conn commands)
        = some (formatResult (send (runState send conn pre) c).2) := by
  constructor
  · rw [List.all_eq_true]
    intro c2 hc2
    exact execAux_all send commands conn [] c2 hc2
  · subst hsplit
    unfold execute_commands
    rw [execAux_append send pre (c :: post) (conn, [])]
    rcases hsm : execAux send pre (conn, []) with ⟨s1, m1⟩
    have hs1 : s1 = runState send conn pre := by
      have hfst := execAux_fst send pre conn []
      rw [hsm] at hfst
      exact hfst
    simp only [execAux]
    rw [execAux_skip send post _ _ c hnot, assocFind_upd_self, hs1]

/-- Witness for C9: the second command raises and is captured inline. -/
theorem spec_c9_witness :
    ((["show version", "show ip route"] : List String)
        = ["show version"] ++ "show ip route" :: []
      ∧ "show ip route" ∉ ([] : List String))
    ∧ ((["show version", "show ip route"].all (fun c2 =>
          (assocFind c2
            (execute_commands sendW 0 ["show version", "show ip route"])).isSome)) = true
      ∧ assocFind "show ip route"
            (execute_commands sendW 0 ["show version", "show ip route"])
          = some (formatResult (sendW (runState sendW 0 ["show version"]) "show ip route").2)) :=
  ⟨⟨rfl, by decide⟩,
   spec_c9 sendW 0 ["show version", "show ip route"] ["show version"] [] "show ip route"
     rfl (by decide)⟩
